import Mathlib

/-!
Verification of the quantized multi-track step sequencer core of the
`supriya_demos` repository, against its design specification.

The relevant Python sources are shallowly embedded below:

* `src/midi_drum_sequencer/drum_machine.py` (class `DrumMachine`),
* `src/sampler/sequencer.py`               (class `Sequencer`, namespace `Sampler`),
* `src/sampler_sequencer/track.py`         (class `Track`, namespace `SamSeq`),
* `src/sampler_sequencer/sequencer.py` and `src/class_lib/base_sequencer.py`
  (class `Sequencer`/`BaseSequencer`, namespace `SamSeq`).

Musical times and beat deltas are modelled as rationals (the Python code
computes them with `fractions.Fraction` before a final `float` conversion, and
all deltas occurring in the programs are exactly representable).  Python dicts
keyed by step time are modelled as insertion-ordered association lists.
Fallible Python operations (exceptions such as `ValueError`,
`ZeroDivisionError`, `IndexError`) are modelled with `Option`.
supriya's `Clock` is an external collaborator of the core; it is modelled from
the specification's interface description (§4.2): `cue` returns a fresh handle,
`cancel` deregisters a handle and is a no-op when the handle is absent.
-/

/-- MIDI message kinds handled by the sequencers (mido `Message.type`). -/
inductive MsgType where
  | note_on
  | note_off
  | control_change
  | program_change
deriving DecidableEq

/-- A mido MIDI message, restricted to the fields the sequencer core reads:
`type`, `channel`, `note`, `velocity` and the `time` attribute that
`message.copy(time=...)` overwrites. -/
structure Msg where
  type : MsgType
  channel : Nat
  note : Nat
  velocity : Nat
  time : ℚ
deriving DecidableEq

/-- An insertion-ordered association list modelling a Python `dict`
(or `defaultdict(list)`) from quantized step time to the list of events
recorded at that step. -/
abbrev NoteStore (α : Type) : Type := List (ℚ × List α)

/-- Plain `dict.get(key, default)`-style lookup: no mutation on a miss. -/
def storeLookup {α : Type} : NoteStore α → ℚ → Option (List α)
  | [], _ => none
  | (k2, vs) :: rest, k => if k2 = k then some vs else storeLookup rest k

/-- `defaultdict(list)` write path `d[key].append(v)`: appends to the list
at `key`, creating the key (at the end, in dict insertion order) if absent. -/
def storeAppend {α : Type} : NoteStore α → ℚ → α → NoteStore α
  | [], k, v => [(k, [v])]
  | (k2, vs) :: rest, k, v =>
      if k2 = k then (k2, vs ++ [v]) :: rest else (k2, vs) :: storeAppend rest k v

/-- `defaultdict(list)` read path `d[key]`: returns the list at `key`, and on a
miss inserts a fresh empty list under `key` (the documented `defaultdict`
side effect of `__getitem__`). -/
def storeGetAdd {α : Type} (s : NoteStore α) (k : ℚ) : List α × NoteStore α :=
  match storeLookup s k with
  | some vs => (vs, s)
  | none => ([], s ++ [(k, [])])

/-- The keys of a store, in insertion order. -/
def storeKeys {α : Type} (s : NoteStore α) : List ℚ :=
  (s : List (ℚ × List α)).map Prod.fst

/-- Numeric value of a list of decimal digit characters (most significant
first), as accumulated by Python `int`/`fractions.Fraction` digit parsing. -/
def digitsToNat (cs : List Char) : Nat :=
  cs.foldl (fun n c => 10 * n + (c.toNat - 48)) 0

/-- Python `int(s)` restricted to unsigned decimal digit strings: succeeds
exactly on a non-empty all-digit string.  (Python also accepts surrounding
whitespace, a sign, and underscores; none of those occur in the quantization
tokens this repository manipulates, so they are not modelled.) -/
def parseDigits (cs : List Char) : Option Nat :=
  if cs.isEmpty then none
  else if cs.all Char.isDigit then some (digitsToNat cs) else none

/-- Leading-sign handling of `fractions.Fraction`'s string constructor. -/
def parseSign (cs : List Char) : Bool × List Char :=
  match cs with
  | [] => (false, [])
  | c :: rest =>
      if c = '-' then (true, rest)
      else if c = '+' then (false, rest)
      else (false, c :: rest)

/-- Splits a character list at the first `'/'`, returning the part before it
and (when a `'/'` is present) the part after it. -/
def splitAtSlash : List Char → List Char × Option (List Char)
  | [] => ([], none)
  | c :: cs =>
      if c = '/' then ([], some cs)
      else
        let r := splitAtSlash cs
        (c :: r.1, r.2)

/-- `fractions.Fraction(s)` for a string, restricted to the forms
`[sign]digits` and `[sign]digits/digits` that quantization tokens take.
Returns `none` where Python raises (`ValueError` on a non-matching string,
`ZeroDivisionError` on a zero denominator).  The decimal-point, whitespace and
underscore forms also accepted by Python never occur here and are not
modelled. -/
def pyFraction (cs : List Char) : Option ℚ :=
  let sr := parseSign cs
  match splitAtSlash sr.2 with
  | (numPart, none) =>
      match parseDigits numPart with
      | none => none
      | some n => some (if sr.1 then -(n : ℚ) else (n : ℚ))
  | (numPart, some denPart) =>
      match parseDigits numPart, parseDigits denPart with
      | some n, some d =>
          if d = 0 then none
          else some ((if sr.1 then -(n : ℚ) else (n : ℚ)) / (d : ℚ))
      | _, _ => none

/-- `DrumMachine._quantization_to_beats` (drum_machine.py, lines 254-259):
`fractions.Fraction(quantization.replace("T", ""))`, multiplied by `2/3`
when `"T" in quantization`.  Note that `replace` strips every `'T'` wherever
it occurs, and the triplet test looks anywhere in the original token. -/
def quantization_to_beats (quantization : String) : Option ℚ :=
  let cs := quantization.toList
  let stripped := cs.filter (fun c => c ≠ 'T')
  match pyFraction stripped with
  | none => none
  | some f => if cs.contains 'T' then some (f * (2 / 3)) else some f

/-- The quantization-token grammar as written in the specification (§4.1):
`"<num>/<den>"` or `"<num>/<den>T"` with decimal `num`, `den`.  This is the
spec's grammar, kept separate from the source-derived converter above so the
two can be compared. -/
def wellFormedQuantToken (quantization : String) : Bool :=
  let cs := quantization.toList
  let body := if cs.getLast? = some 'T' then cs.dropLast else cs
  match splitAtSlash body with
  | (np, some dp) =>
      !np.isEmpty && np.all Char.isDigit && !dp.isEmpty && dp.all Char.isDigit
  | (_, none) => false

/-- `SequencerMode` (drum_machine.py, lines 50-54). -/
inductive SequencerMode where
  | PERFORM
  | PLAYBACK
  | RECORD
deriving DecidableEq

/-- Membership test `command in SequencerMode.__members__` together with the
lookup `SequencerMode[command]`. -/
def modeOfCommand (command : String) : Option SequencerMode :=
  if command = "PERFORM" then some SequencerMode.PERFORM
  else if command = "PLAYBACK" then some SequencerMode.PLAYBACK
  else if command = "RECORD" then some SequencerMode.RECORD
  else none

/-- Clock time units (supriya `TimeUnit`). -/
inductive TimeUnit where
  | BEATS
  | SECONDS
deriving DecidableEq

/-- Modelled from the spec: supriya's `Clock` is an external collaborator
(§4.2, §6); its code is not part of this repository.  Per the specification,
`cue`/`schedule` registers a callback and returns a fresh cancellable handle,
`cancel` deregisters a handle and is idempotent (cancelling an absent handle
is a no-op), and `start`/`stop` toggle the running state. -/
structure ClockModel where
  next_id : Nat
  active : List Nat
  is_running : Bool
deriving DecidableEq

/-- `clock.cue(...)`: registers a callback, returning the clock with the fresh
handle active and the handle itself. -/
def ClockModel.cue (c : ClockModel) : ClockModel × Nat :=
  ({ c with next_id := c.next_id + 1, active := c.active ++ [c.next_id] }, c.next_id)

/-- `clock.cancel(event_id)`: deregisters the handle; no-op when absent. -/
def ClockModel.cancel (c : ClockModel) (i : Nat) : ClockModel :=
  { c with active := c.active.filter (fun j => j ≠ i) }

/-- `clock.start()`. -/
def ClockModel.start (c : ClockModel) : ClockModel :=
  { c with is_running := true }

/-- `clock.stop()`. -/
def ClockModel.stop (c : ClockModel) : ClockModel :=
  { c with is_running := false }

/-- `DrumMachine.SEQUENCER_STEPS` (drum_machine.py line 84) and
`BaseSequencer._SEQUENCER_STEPS` (base_sequencer.py line 35): both `16`. -/
def SEQUENCER_STEPS : Nat := 16

/-- The state of `DrumMachine` (drum_machine.py), restricted to the fields the
sequencer logic reads and writes.  `played` is a ghost log of the synths
spawned by `server.add_synth` (the external SoundSink dispatches);
`stop_listening` is the `stop_listening_for_input` threading event. -/
structure DrumMachine where
  quantization_delta : ℚ
  recorded_notes : NoteStore Msg
  sequencer_mode : SequencerMode
  clock : ClockModel
  clock_event_id : Option Nat
  played : List Msg
  stop_listening : Bool
deriving DecidableEq

/-- `DrumMachine.on_note_on` (drum_machine.py, lines 224-252): always plays the
drum synth for the message, and in RECORD mode additionally stores a copy of
the message, with its `time` set to
`(message.note % SEQUENCER_STEPS) * quantization_delta`, at that key. -/
def DrumMachine.on_note_on (dm : DrumMachine) (message : Msg) : DrumMachine :=
  let dm := { dm with played := dm.played ++ [message] }
  if dm.sequencer_mode = SequencerMode.RECORD then
    let recorded_time := ((message.note % SEQUENCER_STEPS : Nat) : ℚ) * dm.quantization_delta
    let recorded_message := { message with time := recorded_time }
    { dm with recorded_notes := storeAppend dm.recorded_notes recorded_time recorded_message }
  else dm

/-- `DrumMachine.handle_midi_message` (drum_machine.py, lines 199-208): only
Note On messages are handled. -/
def DrumMachine.handle_midi_message (dm : DrumMachine) (message : Msg) : DrumMachine :=
  if message.type = MsgType.note_on then dm.on_note_on message else dm

/-- `DrumMachine.sequencer_clock_callback` (drum_machine.py, lines 266-285).
The lookup `self.recorded_notes[recorded_notes_index]` goes through the
`defaultdict`, so a miss inserts an empty list.  The `for` loop at lines
282-283 iterates the LIVE list object: when the machine is in RECORD mode,
every dispatched Note On is re-recorded by `on_note_on`, and whenever its
pitch-derived key `(note % 16) * quantization_delta` equals the slot index
being iterated, the append lands in the very list under iteration — each
processed copy appends another copy, so the list grows forever and the loop
never terminates.  `none` models that divergence (the callback never
returns).  In every other case no append touches the iterated list, so the
iteration equals a fold over the initial list, which the model performs,
returning the machine, the dispatched messages and the `(delta,
TimeUnit.BEATS)` reply that keeps the callback scheduled. -/
def DrumMachine.sequencer_clock_callback (dm : DrumMachine) (invocations : Nat)
    (delta : ℚ) : Option (DrumMachine × List Msg × (ℚ × TimeUnit)) :=
  let recorded_notes_index := delta * ((invocations % SEQUENCER_STEPS : Nat) : ℚ)
  let p := storeGetAdd dm.recorded_notes recorded_notes_index
  let dm := { dm with recorded_notes := p.2 }
  if dm.sequencer_mode = SequencerMode.RECORD ∧
      p.1.any (fun m => m.type = MsgType.note_on ∧
        ((m.note % SEQUENCER_STEPS : Nat) : ℚ) * dm.quantization_delta = recorded_notes_index)
  then none
  else
    let dm := p.1.foldl (fun d m => d.handle_midi_message m) dm
    some (dm, p.1, (delta, TimeUnit.BEATS))

/-- `DrumMachine.start_playback` (drum_machine.py, lines 287-293):
unconditionally cues the clock callback and stores the handle. -/
def DrumMachine.start_playback (dm : DrumMachine) : DrumMachine :=
  let p := dm.clock.cue
  { dm with clock := p.1, clock_event_id := some p.2 }

/-- `DrumMachine.stop_playback` (drum_machine.py, lines 295-298): cancels the
stored handle when one exists; the handle field itself is left in place. -/
def DrumMachine.stop_playback (dm : DrumMachine) : DrumMachine :=
  match dm.clock_event_id with
  | none => dm
  | some i => { dm with clock := dm.clock.cancel i }

/-- `DrumMachine.exit` (drum_machine.py, lines 300-304), restricted to the
state in the model: sets the stop event (port/server teardown is external). -/
def DrumMachine.exit_sequencer (dm : DrumMachine) : DrumMachine :=
  { dm with stop_listening := true }

/-- One iteration of the `DrumMachine.consume_keyboard_input` loop body
(drum_machine.py, lines 156-197) on one entered command.  Returns the updated
machine, `false` when the loop `break`s (EXIT), and the ghost trace of the
values assigned to `sequencer_mode` during the iteration, in order (used to
express "passing through" a mode).  Mirrors the source exactly: the `STOP` /
`CLEAR` handling, the `EXIT` break, the mode-membership check with its
`continue` on a same-mode command (which skips the trailing PLAYBACK check),
and the trailing `if mode == PLAYBACK: start_playback()`. -/
def DrumMachine.consume_command (dm : DrumMachine) (input : String) :
    DrumMachine × Bool × List SequencerMode :=
  let command := input.toUpper
  let p1 :=
    if command = "STOP" then
      let dm := if dm.sequencer_mode = SequencerMode.PLAYBACK then dm.stop_playback else dm
      ({ dm with sequencer_mode := SequencerMode.PERFORM }, [SequencerMode.PERFORM])
    else (dm, [])
  let dm := p1.1
  let dm := if command = "CLEAR" then { dm with recorded_notes := [] } else dm
  if command = "EXIT" then (dm.exit_sequencer, false, p1.2)
  else
    match modeOfCommand command with
    | none =>
        -- "Incorrect command" is printed; state is unchanged, then the
        -- trailing PLAYBACK check still runs.
        let dm := if dm.sequencer_mode = SequencerMode.PLAYBACK then dm.start_playback else dm
        (dm, true, p1.2)
    | some m =>
        if dm.sequencer_mode = m then (dm, true, p1.2)  -- `continue`
        else
          let dm :=
            if dm.sequencer_mode = SequencerMode.PLAYBACK ∧ m ≠ SequencerMode.PLAYBACK
            then dm.stop_playback else dm
          let dm := { dm with sequencer_mode := m }
          let dm := if dm.sequencer_mode = SequencerMode.PLAYBACK then dm.start_playback else dm
          (dm, true, p1.2 ++ [m])

/-- A note routed to the sampler (`sampler_note.py` `SamplerNote`): the MIDI
message plus the program/sample tags used for multi-instrument routing. -/
structure SamplerNote where
  program : String
  sample_index : Nat
  message : Msg
deriving DecidableEq

namespace Sampler

/-- Modelled from the spec: the `Track` class used by `src/sampler/sequencer.py`
(`from track import Track`) is not present under `src/`; only its construction
sites and callers are.  Per the specification (§3, §4.3) and its uses in
`sampler/sequencer.py`, a track owns `quantization_delta`, `sequencer_steps`
and the recorded-notes mapping from step time to the notes at that step. -/
structure Track where
  quantization_delta : ℚ
  sequencer_steps : Nat
  recorded_notes : NoteStore SamplerNote
deriving DecidableEq

/-- Modelled from the spec (§4.3 `record`): the missing `Track.record_midi_message`
computes `step_time = (note % sequencer_steps) * quantization_delta` and appends
a copy of the note whose `time` is that step time. -/
def Track.record_midi_message (tr : Track) (sampler_note : SamplerNote) : Track :=
  let recorded_time :=
    ((sampler_note.message.note % tr.sequencer_steps : Nat) : ℚ) * tr.quantization_delta
  let recorded_message := { sampler_note.message with time := recorded_time }
  { tr with recorded_notes :=
      storeAppend tr.recorded_notes recorded_time { sampler_note with message := recorded_message } }

/-- Modelled from the spec (§4.3 `erase`): `Track.erase_recorded_notes`. -/
def Track.erase_recorded_notes (tr : Track) : Track :=
  { tr with recorded_notes := [] }

/-- The state of `Sequencer` (src/sampler/sequencer.py), restricted to the
fields its sequencing logic reads and writes.  `DELTA = 0.125` and
`SEQUENCER_STEPS = 16` are per-instance constants in `__init__`.
`start_recording_log` / `stop_recording_log` are ghost counters of the calls
made to the externally supplied `start_recording_callback` /
`stop_recording_callback`; `dispatched` is a ghost log of the notes sent to
`sampler.on_note_on` by the clock callback. -/
structure Sequencer where
  clock : ClockModel
  clock_event_id : Option Nat
  DELTA : ℚ
  is_sequencing : Bool
  playback_track_index : Nat
  playing_track : Option Track
  tracks : List Track
  selected_track : Track
  monitor_event : Bool
  start_recording_log : Nat
  stop_recording_log : Nat
  dispatched : List SamplerNote
deriving DecidableEq

/-- A fresh track as built by `Sequencer.add_track` / `_initialize_tracks`
(sampler/sequencer.py): `Track(quantization_delta=self.DELTA,
sequencer_steps=self.SEQUENCER_STEPS)`. -/
def newTrack (delta : ℚ) : Track :=
  { quantization_delta := delta, sequencer_steps := SEQUENCER_STEPS, recorded_notes := [] }

/-- `Sequencer.add_track` (sampler/sequencer.py, lines 62-68). -/
def Sequencer.add_track (sq : Sequencer) : Sequencer :=
  { sq with tracks := sq.tracks ++ [newTrack sq.DELTA] }

/-- `Sequencer.delete_track` (sampler/sequencer.py, lines 79-85): deletes the
track at `track_number`, auto-creates a fresh track when none remain, and
reassigns the selection to `self.tracks[-1]`.  `del self.tracks[track_number]`
raises `IndexError` when the index is out of range (including on an empty
list), aborting the method with the state unchanged — modelled as `none`.
On an in-range index the `del` is `List.eraseIdx`, and the final
`self.tracks[-1]` is total because the list is non-empty at that point (the
`getD` default is unreachable). -/
def Sequencer.delete_track (sq : Sequencer) (track_number : Nat) : Option Sequencer :=
  if track_number < sq.tracks.length then
    let sq := { sq with tracks := sq.tracks.eraseIdx track_number }
    let sq := if sq.tracks.length = 0 then sq.add_track else sq
    some { sq with selected_track := sq.tracks.getLast?.getD sq.selected_track }
  else none

/-- `Sequencer.erase_track` (sampler/sequencer.py, lines 87-88). -/
def Sequencer.erase_track (sq : Sequencer) (track_number : Nat) : Sequencer :=
  { sq with tracks :=
      sq.tracks.mapIdx (fun i t => if i = track_number then t.erase_recorded_notes else t) }

/-- The dispatch part of `Sequencer.sequencer_clock_callback`
(sampler/sequencer.py, lines 175-182): looks up
`delta * (invocations % SEQUENCER_STEPS)` in the playing track's notes with
`dict.get(..., Rest)`, dispatches any notes found to `sampler.on_note_on`, and
returns `(delta, TimeUnit.BEATS)`.  `playing_track` is `None` only before the
first measure boundary, a state the callback is never invoked in; the model
dispatches nothing there. -/
def Sequencer.dispatch_step (sq : Sequencer) (invocations : Nat) (delta : ℚ) :
    Sequencer × Option (ℚ × TimeUnit) :=
  let recorded_notes_index := delta * ((invocations % SEQUENCER_STEPS : Nat) : ℚ)
  let notes :=
    match sq.playing_track with
    | none => []
    | some tr => (storeLookup tr.recorded_notes recorded_notes_index).getD []
  ({ sq with dispatched := sq.dispatched ++ notes }, some (delta, TimeUnit.BEATS))

/-- `Sequencer.sequencer_clock_callback` (sampler/sequencer.py, lines 161-182).
On a measure boundary (`invocations % SEQUENCER_STEPS == 0`), either terminates
(returns `None`, setting the monitor event) once `playback_track_index` has
reached `len(tracks)`, or advances to the next track; then dispatches the
notes at the current step. -/
def Sequencer.sequencer_clock_callback (sq : Sequencer) (invocations : Nat)
    (delta : ℚ) : Sequencer × Option (ℚ × TimeUnit) :=
  if invocations % SEQUENCER_STEPS = 0 then
    if sq.playback_track_index = sq.tracks.length then
      ({ sq with monitor_event := true }, none)
    else
      let sq := { sq with
        playing_track := sq.tracks.get? sq.playback_track_index,
        playback_track_index := sq.playback_track_index + 1 }
      sq.dispatch_step invocations delta
  else
    sq.dispatch_step invocations delta

/-- `Sequencer.start_playback` (sampler/sequencer.py, lines 187-195): only when
the track list is non-empty and track 0 has at least one recorded key does it
fire the recording callback, start the clock and cue the clock callback;
otherwise it silently does nothing. -/
def Sequencer.start_playback (sq : Sequencer) : Sequencer :=
  match sq.tracks with
  | [] => sq
  | t0 :: _ =>
      if 0 < t0.recorded_notes.length then
        let sq := { sq with start_recording_log := sq.start_recording_log + 1 }
        let sq := { sq with clock := sq.clock.start }
        let p := sq.clock.cue
        { sq with clock := p.1, clock_event_id := some p.2 }
      else sq

/-- `Sequencer.stop_playback` (sampler/sequencer.py, lines 200-208): guarded by
`clock.is_running`; fires the stop-recording callback, resets the playback
track index, sets the monitor event if not yet set, and, when a clock handle
exists, cancels it and stops the clock. -/
def Sequencer.stop_playback (sq : Sequencer) : Sequencer :=
  if sq.clock.is_running then
    let sq := { sq with
      stop_recording_log := sq.stop_recording_log + 1,
      playback_track_index := 0 }
    let sq := if sq.monitor_event = false then { sq with monitor_event := true } else sq
    match sq.clock_event_id with
    | some i => { sq with clock := (sq.clock.cancel i).stop }
    | none => sq
  else sq

/-- The clock's invocation loop for one scheduled callback, run on
`Sequencer.sequencer_clock_callback`: processes up to `fuel` consecutive
invocations starting at index `inv`; a callback that returns `None` is
deregistered, so remaining invocations do not run.  Returns the final state
and whether the callback is still registered. -/
def clock_run (delta : ℚ) : Nat → Nat → Sequencer → Sequencer × Bool
  | 0, _, sq => (sq, true)
  | fuel + 1, inv, sq =>
      match sq.sequencer_clock_callback inv delta with
      | (sq2, none) => (sq2, false)
      | (sq2, some _) => clock_run delta fuel (inv + 1) sq2

/-- The playback start state of the sampler sequencer for a given track list:
`playback_track_index = 0`, no playing track, monitor event clear (the state
produced by `__init__` / a completed `stop_playback` just before
`start_playback` cues the callback). -/
def initial_playback (tracks : List Track) (selected : Track) : Sequencer :=
  { clock := { next_id := 1, active := [0], is_running := true },
    clock_event_id := some 0,
    DELTA := 1 / 8,
    is_sequencing := false,
    playback_track_index := 0,
    playing_track := none,
    tracks := tracks,
    selected_track := selected,
    monitor_event := false,
    start_recording_log := 1,
    stop_recording_log := 0,
    dispatched := [] }

end Sampler

/-- Python `a % b`: raises `ZeroDivisionError` when `b == 0` (unlike Lean's
total `%`, which returns `a` there). -/
def pymod (a b : Nat) : Option Nat :=
  if b = 0 then none else some (a % b)

/-- Python `s.split('/')` on the character list of `s`: splits at every
`'/'`, keeping empty segments. -/
def pySplitSlash : List Char → List (List Char)
  | [] => [[]]
  | c :: rest =>
      if c = '/' then [] :: pySplitSlash rest
      else
        match pySplitSlash rest with
        | [] => [[c]]
        | g :: gs => (c :: g) :: gs

/-- `BaseSequencer._compute_track_length_in_measures` (base_sequencer.py,
lines 52-53): `self._SEQUENCER_STEPS // int(self.quantization.split('/')[1])`.
`none` models the Python exceptions: `IndexError` when the token has no
`'/'`, `ValueError` when the denominator part is not an integer literal, and
`ZeroDivisionError` when it is `0`. -/
def compute_track_length_in_measures (quantization : String) : Option Nat :=
  match (pySplitSlash quantization.toList).get? 1 with
  | none => none
  | some denPart =>
      match parseDigits denPart with
      | none => none
      | some d => if d = 0 then none else some (SEQUENCER_STEPS / d)

namespace SamSeq

/-- The state of `Track` (sampler_sequencer/track.py), restricted to the
fields its sequencing logic reads and writes.  `tid` is a ghost tag standing
for Python object identity (the default `==` on these objects), used to state
membership of a track object in a track list. -/
structure Track where
  tid : Nat
  track_number : Nat
  quantization_delta : ℚ
  sequencer_steps : Nat
  is_recording : Bool
  recorded_notes : NoteStore SamplerNote
  clock_event_id : Option Nat
deriving DecidableEq

/-- `Track.handle_midi_message` (sampler_sequencer/track.py, lines 90-105):
always forwards the note to the instrument (returned as the played list), and
when recording and the message is a Note On, stores at key
`(note % sequencer_steps) * quantization_delta` a `SamplerNote` rebuilt at
line 104 as `SamplerNote(program=..., message=...)` from the program and the
time-rewritten message only: the dataclass's `sample_index` field is left at
its default `0` (sampler_note.py), not copied from the incoming note. -/
def Track.handle_midi_message (tr : Track) (sampler_note : SamplerNote) :
    Track × List SamplerNote :=
  if tr.is_recording ∧ sampler_note.message.type = MsgType.note_on then
    let recorded_time :=
      ((sampler_note.message.note % tr.sequencer_steps : Nat) : ℚ) * tr.quantization_delta
    let recorded_message := { sampler_note.message with time := recorded_time }
    let recorded_sampler_note : SamplerNote :=
      { program := sampler_note.program, sample_index := 0, message := recorded_message }
    ({ tr with recorded_notes :=
        storeAppend tr.recorded_notes recorded_time recorded_sampler_note },
     [sampler_note])
  else (tr, [sampler_note])

/-- `Track.erase_recorded_notes` (sampler_sequencer/track.py, lines 87-88). -/
def Track.erase_recorded_notes (tr : Track) : Track :=
  { tr with recorded_notes := [] }

/-- `Track.track_clock_callback` (sampler_sequencer/track.py, lines 146-166):
looks up `delta * (invocations % sequencer_steps)` with
`recorded_notes.get(..., Rest)` — no store mutation — dispatches any notes
found to the instrument (the returned list), and returns
`(delta, TimeUnit.BEATS)`.  (`sequencer_steps` is always 16 here; Lean's `%`
by zero differs from Python's but that case never arises.) -/
def Track.track_clock_callback (tr : Track) (invocations : Nat) (delta : ℚ) :
    Track × List SamplerNote × (ℚ × TimeUnit) :=
  let recorded_notes_index := delta * ((invocations % tr.sequencer_steps : Nat) : ℚ)
  match storeLookup tr.recorded_notes recorded_notes_index with
  | none => (tr, [], (delta, TimeUnit.BEATS))
  | some sampler_notes => (tr, sampler_notes, (delta, TimeUnit.BEATS))

/-- The `for tn in range(removed_track_number, num_tracks)` loop of
`Sequencer.delete_track` (sampler_sequencer/sequencer.py, lines 169-170),
with `i` the position of the list head: every track at a position `≥ k` gets
its `track_number` set to its position. -/
def renumberAux (k : Nat) : Nat → List Track → List Track
  | _, [] => []
  | i, t :: ts =>
      (if k ≤ i then { t with track_number := i } else t) :: renumberAux k (i + 1) ts

/-- Renumbering from position `k` over a whole track list. -/
def renumberFrom (k : Nat) (ts : List Track) : List Track :=
  renumberAux k 0 ts

/-- `Sequencer.delete_track` restricted to one instrument's track list
(sampler_sequencer/sequencer.py, lines 164-170): reads the deleted track's
`track_number`, removes the track, and renumbers the survivors from that
number on.  An out-of-range `track_number` raises in Python (`IndexError`);
the model leaves the list unchanged there. -/
def deleteTrackFromList (ts : List Track) (track_number : Nat) : List Track :=
  match ts.get? track_number with
  | none => ts
  | some t =>
      let removed_track_number := t.track_number
      renumberFrom removed_track_number (ts.eraseIdx track_number)

/-- Looks up one instrument's track list in the `tracks` dict. -/
def dictTracks (d : List (String × List Track)) (instrument_name : String) :
    Option (List Track) :=
  match d with
  | [] => none
  | (k, v) :: rest => if k = instrument_name then some v else dictTracks rest instrument_name

/-- Updates one instrument's track list in the `tracks` dict (Python mutates
`self.tracks[instrument_name]` in place; a missing key raises `KeyError`, the
model leaves the dict unchanged there). -/
def dictUpdate (d : List (String × List Track)) (instrument_name : String)
    (f : List Track → List Track) : List (String × List Track) :=
  match d with
  | [] => []
  | (k, v) :: rest =>
      if k = instrument_name then (k, f v) :: rest
      else (k, v) :: dictUpdate rest instrument_name f

/-- The state of `Sequencer` (sampler_sequencer/sequencer.py together with its
base class in class_lib/base_sequencer.py), restricted to the fields the
claims concern.  `tracks` maps each instrument name to its ordered track
list; `selected_track` holds the selected track object (by value, with `tid`
standing for its identity). -/
structure Sequencer where
  quantization : String
  quantization_delta : ℚ
  track_length_in_measures : Nat
  is_recording : Bool
  tracks : List (String × List Track)
  selected_track : Track
  playing_tracks : List Track
deriving DecidableEq

/-- `Sequencer.delete_track` (sampler_sequencer/sequencer.py, lines 164-170).
Note that the selection is not touched. -/
def Sequencer.delete_track (sq : Sequencer) (instrument_name : String)
    (track_number : Nat) : Sequencer :=
  { sq with tracks :=
      dictUpdate sq.tracks instrument_name (fun ts => deleteTrackFromList ts track_number) }

/-- The `quantization_delta` property setter (sampler_sequencer/sequencer.py,
lines 102-107): stores the new delta and pushes it to every track of every
instrument.  Recorded notes are not re-keyed. -/
def Sequencer.set_quantization_delta (sq : Sequencer) (quantization_delta : ℚ) : Sequencer :=
  { sq with
    quantization_delta := quantization_delta,
    tracks := sq.tracks.map (fun p =>
      (p.1, p.2.map (fun t => { t with quantization_delta := quantization_delta }))) }

/-- `Sequencer.start_tracks_playback` (sampler_sequencer/sequencer.py, lines
251-264): stops the currently playing tracks, clears the playing list, then
collects, per instrument in dict order, the track at `track_index` (skipping
instruments with fewer tracks) and starts them.  The per-track clock cueing
is outside the scope of the claims and not modelled. -/
def Sequencer.start_tracks_playback (sq : Sequencer) (track_index : Nat) : Sequencer :=
  { sq with playing_tracks := sq.tracks.filterMap (fun p => p.2.get? track_index) }

/-- `Sequencer.sequencer_clock_callback` (sampler_sequencer/sequencer.py,
lines 221-230): on every multiple of `track_length_in_measures` invocations,
advances the arrangement to measure `invocations // track_length_in_measures`;
always returns `(delta, TimeUnit.BEATS)`.  The `%` is Python's: when
`track_length_in_measures = 0` the callback raises `ZeroDivisionError`,
modelled as `none`. -/
def Sequencer.sequencer_clock_callback (sq : Sequencer) (invocations : Nat)
    (delta : ℚ) : Option (Sequencer × (ℚ × TimeUnit)) :=
  match pymod invocations sq.track_length_in_measures with
  | none => none
  | some r =>
      let sq :=
        if r = 0 then sq.start_tracks_playback (invocations / sq.track_length_in_measures)
        else sq
      some (sq, (delta, TimeUnit.BEATS))

end SamSeq

/-- The specification's Track-key invariant (§3): every step-time key of a
track's store is an exact multiple `j * quantization_delta` with
`0 ≤ j < sequencer_steps` of the track's current delta. -/
def keysAligned (tr : SamSeq.Track) : Bool :=
  (storeKeys tr.recorded_notes).all (fun k =>
    (List.range tr.sequencer_steps).any (fun j => k = (j : ℚ) * tr.quantization_delta))

/-- A concrete Note On message (pitch 3, non-zero wall-clock `time`). -/
def msgEx : Msg :=
  { type := MsgType.note_on, channel := 0, note := 3, velocity := 100, time := 7 }

/-- A concrete drum machine in RECORD mode with quantization `1/16`. -/
def dmRecEx : DrumMachine :=
  { quantization_delta := 1 / 16,
    recorded_notes := [],
    sequencer_mode := SequencerMode.RECORD,
    clock := { next_id := 0, active := [], is_running := true },
    clock_event_id := none,
    played := [],
    stop_listening := false }

/-- A concrete drum machine in PLAYBACK mode with an empty recorded store. -/
def dmPlayEx : DrumMachine :=
  { quantization_delta := 1 / 4,
    recorded_notes := [],
    sequencer_mode := SequencerMode.PLAYBACK,
    clock := { next_id := 1, active := [0], is_running := true },
    clock_event_id := some 0,
    played := [],
    stop_listening := false }

/-- A concrete sampler note (pitch 3). -/
def sampNoteEx : SamplerNote :=
  { program := "sp_303", sample_index := 0, message := msgEx }

/-- A sampler track with one recorded note, as left by `record_midi_message`. -/
def samplerTrackEx : Sampler.Track :=
  (Sampler.newTrack (1 / 8)).record_midi_message sampNoteEx

/-- A sampler sequencer whose only track has recorded material. -/
def samplerSeqEx : Sampler.Sequencer :=
  Sampler.initial_playback [samplerTrackEx] samplerTrackEx

/-- A sampler sequencer where track 0 is empty but track 1 has recorded
material (the configuration deciding the `start_playback` policy). -/
def samplerSeqSkewEx : Sampler.Sequencer :=
  { Sampler.initial_playback [Sampler.newTrack (1 / 8), samplerTrackEx] samplerTrackEx with
    clock := { next_id := 0, active := [], is_running := false },
    clock_event_id := none,
    start_recording_log := 0 }

/-- A concrete sampler_sequencer track (identity tag 0, track number 0),
holding the single note recorded by `handle_midi_message` under delta
`1/16`. -/
def ssTrack0Ex : SamSeq.Track :=
  (SamSeq.Track.handle_midi_message
    { tid := 0, track_number := 0, quantization_delta := 1 / 16,
      sequencer_steps := 16, is_recording := true,
      recorded_notes := [], clock_event_id := none }
    sampNoteEx).1

/-- A second, empty sampler_sequencer track (identity tag 1, track number 1). -/
def ssTrack1Ex : SamSeq.Track :=
  { tid := 1, track_number := 1, quantization_delta := 1 / 16,
    sequencer_steps := 16, is_recording := true,
    recorded_notes := [], clock_event_id := none }

/-- A concrete sampler_sequencer with one instrument owning two tracks, the
first of which is selected. -/
def ssSeqEx : SamSeq.Sequencer :=
  { quantization := "1/16",
    quantization_delta := 1 / 16,
    track_length_in_measures := 1,
    is_recording := true,
    tracks := [("sampler", [ssTrack0Ex, ssTrack1Ex])],
    selected_track := ssTrack0Ex,
    playing_tracks := [] }

/-- `ssSeqEx` with a zero `track_length_in_measures`, as produced by
quantization `"1/32"` (`16 // 32 = 0`). -/
def ssSeqZeroEx : SamSeq.Sequencer :=
  { ssSeqEx with quantization := "1/32", track_length_in_measures := 0 }

/-- The sampler sequencer state after its single track's measure has played:
`playback_track_index` has reached the track-list length. -/
def samplerSeqDoneEx : Sampler.Sequencer :=
  { samplerSeqEx with playback_track_index := 1, playing_track := some samplerTrackEx }

/-- A concrete sampler note carrying a non-default `sample_index` of 1. -/
def sampNoteIdxEx : SamplerNote :=
  { program := "sp_303", sample_index := 1, message := msgEx }

/-- The drum machine `dmRecEx` after recording `msgEx` while still in RECORD
mode: slot `3 * (1/16)` holds a Note On whose pitch-derived key equals that
slot index. -/
def dmDivEx : DrumMachine :=
  dmRecEx.on_note_on msgEx

/-!  ## Theorems  -/

theorem storeKeys_storeAppend {α : Type} (s : NoteStore α) (k : ℚ) (v : α) :
    storeKeys (storeAppend s k v) = if k ∈ storeKeys s then storeKeys s else storeKeys s ++ [k] := by
  induction s with
  | nil => simp [storeAppend, storeKeys]
  | cons p rest ih =>
      obtain ⟨k2, vs⟩ := p
      by_cases hk : k2 = k
      · subst hk
        simp [storeAppend, storeKeys]
      · have hne : ¬(k = k2) := fun h => hk h.symm
        simp only [storeAppend, if_neg hk, storeKeys, List.map_cons, List.mem_cons]
        rw [storeKeys] at ih
        rw [ih]
        by_cases hmem : k ∈ List.map Prod.fst rest
        · simp [storeKeys, hmem, hne]
        · simp [storeKeys, hmem, hne]

/-- C1 counterexample: the sampler_sequencer track does not store a copy of
the original event.  Recording a note with `sample_index = 1` on the empty
recording track stores a note whose `sample_index` is `0` (the dataclass
default restored by `SamplerNote(program=..., message=...)` at track.py line
104), so the stored value differs from every copy of the original. -/
theorem recorded_copy_resets_sample_index :
    sampNoteIdxEx.sample_index = 1 ∧
    storeLookup (ssTrack1Ex.handle_midi_message sampNoteIdxEx).1.recorded_notes
        (3 * (1 / 16)) =
      some [{ program := "sp_303", sample_index := 0,
              message := { msgEx with time := 3 * (1 / 16) } }] := by
  with_unfolding_all decide

/-- C1 (amended): a NoteOn of pitch `p` recorded in RECORD mode (drum
machine), or on a recording track (sampler_sequencer with its 16 steps), is
stored at the step-time key `(p % 16) * quantization_delta`, and the slot
depends only on the pitch — the event's wall-clock `time` does not affect
what is recorded or where.  The drum machine stores an exact copy of the
event with only `time` rewritten to the key; the sampler_sequencer track
instead stores a `SamplerNote` rebuilt from the program and the
time-rewritten message, with `sample_index` reset to its default `0`. -/
theorem record_lands_at_pitch_derived_step :
    (∀ (dm : DrumMachine) (m : Msg), dm.sequencer_mode = SequencerMode.RECORD →
      (dm.on_note_on m).recorded_notes =
        storeAppend dm.recorded_notes (((m.note % 16 : Nat) : ℚ) * dm.quantization_delta)
          { m with time := ((m.note % 16 : Nat) : ℚ) * dm.quantization_delta } ∧
      ∀ t' : ℚ, (dm.on_note_on { m with time := t' }).recorded_notes =
        (dm.on_note_on m).recorded_notes) ∧
    (∀ (tr : SamSeq.Track) (sn : SamplerNote), tr.is_recording = true →
      sn.message.type = MsgType.note_on → tr.sequencer_steps = 16 →
      (tr.handle_midi_message sn).1.recorded_notes =
        storeAppend tr.recorded_notes
          (((sn.message.note % 16 : Nat) : ℚ) * tr.quantization_delta)
          { program := sn.program, sample_index := 0,
            message :=
              { sn.message with time := ((sn.message.note % 16 : Nat) : ℚ) * tr.quantization_delta } } ∧
      ∀ t' : ℚ,
        (tr.handle_midi_message { sn with message := { sn.message with time := t' } }).1.recorded_notes =
          (tr.handle_midi_message sn).1.recorded_notes) := by
  constructor
  · intro dm m hmode
    constructor
    · simp [DrumMachine.on_note_on, SEQUENCER_STEPS, hmode]
    · intro t'
      simp [DrumMachine.on_note_on, SEQUENCER_STEPS, hmode]
  · intro tr sn hrec htype hsteps
    constructor
    · simp [SamSeq.Track.handle_midi_message, hrec, htype, hsteps]
    · intro t'
      simp [SamSeq.Track.handle_midi_message, hrec, htype, hsteps]

/-- C1 witness: the amended theorem applied to the concrete drum machine
`dmRecEx` (quantization `1/16`) and message `msgEx` (pitch 3, wall-clock time
7), and to the concrete recording track `ssTrack0Ex`: the note is stored at
key `3 * (1/16)`, with the sampler_sequencer copy's `sample_index` reset. -/
theorem record_lands_at_pitch_derived_step_witness :
    (dmRecEx.on_note_on msgEx).recorded_notes =
      storeAppend dmRecEx.recorded_notes (((msgEx.note % 16 : Nat) : ℚ) * dmRecEx.quantization_delta)
        { msgEx with time := ((msgEx.note % 16 : Nat) : ℚ) * dmRecEx.quantization_delta } ∧
    (ssTrack0Ex.handle_midi_message sampNoteEx).1.recorded_notes =
      storeAppend ssTrack0Ex.recorded_notes
        (((sampNoteEx.message.note % 16 : Nat) : ℚ) * ssTrack0Ex.quantization_delta)
        { program := sampNoteEx.program, sample_index := 0,
          message :=
            { sampNoteEx.message with
                time := ((sampNoteEx.message.note % 16 : Nat) : ℚ) * ssTrack0Ex.quantization_delta } } :=
  ⟨(record_lands_at_pitch_derived_step.1 dmRecEx msgEx rfl).1,
   (record_lands_at_pitch_derived_step.2 ssTrack0Ex sampNoteEx rfl rfl rfl).1⟩

theorem listFilter_idem {α : Type} (p : α → Bool) (l : List α) :
    (l.filter p).filter p = l.filter p := by
  induction l with
  | nil => rfl
  | cons a l ih =>
      by_cases h : p a = true
      · simp [List.filter_cons, h, ih]
      · simp [List.filter_cons, h, ih]

theorem clockCancel_idem (c : ClockModel) (i : Nat) :
    (c.cancel i).cancel i = c.cancel i := by
  simp [ClockModel.cancel, listFilter_idem]

/-- C9: cancelling playback is idempotent.  For the drum machine,
`stop_playback` twice equals `stop_playback` once (the clock's `cancel` on
the same handle is a no-op the second time); likewise `cancel` itself is
idempotent on any handle; and for the sampler sequencer, in any state where a
running clock implies a stored handle (which holds in all reachable states,
since only `start_playback` starts the clock and it also stores the handle),
`stop_playback` twice equals `stop_playback` once. -/
theorem stop_playback_idempotent :
    (∀ dm : DrumMachine, dm.stop_playback.stop_playback = dm.stop_playback) ∧
    (∀ (c : ClockModel) (i : Nat), (c.cancel i).cancel i = c.cancel i) ∧
    (∀ sq : Sampler.Sequencer, (sq.clock.is_running = true → sq.clock_event_id ≠ none) →
      sq.stop_playback.stop_playback = sq.stop_playback) := by
  refine ⟨?_, clockCancel_idem, ?_⟩
  · intro dm
    match h : dm.clock_event_id with
    | none => simp [DrumMachine.stop_playback, h]
    | some i => simp [DrumMachine.stop_playback, h, clockCancel_idem]
  · intro sq hrun
    by_cases h : sq.clock.is_running = true
    · have hid := hrun h
      match hi : sq.clock_event_id with
      | none => exact absurd hi hid
      | some i =>
          by_cases hm : sq.monitor_event = false <;>
            simp [Sampler.Sequencer.stop_playback, h, hi, hm, ClockModel.stop]
    · simp [Sampler.Sequencer.stop_playback, h]

/-- C9 witness: idempotence at the concrete playing states `dmPlayEx` and
`samplerSeqEx` (both with a running clock and handle 0), and at handle 0 of
the concrete clock of `dmPlayEx`. -/
theorem stop_playback_idempotent_witness :
    dmPlayEx.stop_playback.stop_playback = dmPlayEx.stop_playback ∧
    (dmPlayEx.clock.cancel 0).cancel 0 = dmPlayEx.clock.cancel 0 ∧
    samplerSeqEx.stop_playback.stop_playback = samplerSeqEx.stop_playback :=
  ⟨stop_playback_idempotent.1 dmPlayEx,
   stop_playback_idempotent.2.1 dmPlayEx.clock 0,
   stop_playback_idempotent.2.2 samplerSeqEx (by intro _ h; cases h)⟩

/-- C4 counterexample: a playback tick of the drum machine at an empty step
does return no events, but it does NOT leave the recorded-notes store
unchanged: the `defaultdict` lookup inserts an empty list under the missed
key (here key `0` in the initially empty store of `dmPlayEx`). -/
theorem drum_tick_miss_mutates_store :
    (dmPlayEx.sequencer_clock_callback 0 (1 / 4)).map (fun r => r.2.1) = some [] ∧
    (dmPlayEx.sequencer_clock_callback 0 (1 / 4)).map (fun r => r.1.recorded_notes) ≠
      some dmPlayEx.recorded_notes ∧
    (dmPlayEx.sequencer_clock_callback 0 (1 / 4)).map (fun r => r.1.recorded_notes) =
      some [(0, [])] := by
  with_unfolding_all decide

/-- C4 (amended): looking up an empty step during a playback tick returns an
empty sequence of events and never raises, in both variants; the
sampler_sequencer track's `dict.get`-based lookup leaves its store unchanged,
while the drum machine's `defaultdict` lookup inserts an empty list under the
missed key (appended in dict insertion order). -/
theorem events_at_empty_step :
    (∀ (tr : SamSeq.Track) (inv : Nat) (δ : ℚ),
      storeLookup tr.recorded_notes (δ * ((inv % tr.sequencer_steps : Nat) : ℚ)) = none →
      tr.track_clock_callback inv δ = (tr, [], (δ, TimeUnit.BEATS))) ∧
    (∀ (dm : DrumMachine) (inv : Nat) (δ : ℚ),
      storeLookup dm.recorded_notes (δ * ((inv % SEQUENCER_STEPS : Nat) : ℚ)) = none →
      dm.sequencer_clock_callback inv δ =
        some ({ dm with recorded_notes :=
            dm.recorded_notes ++ [(δ * ((inv % SEQUENCER_STEPS : Nat) : ℚ), [])] },
          [], (δ, TimeUnit.BEATS))) := by
  constructor
  · intro tr inv δ hmiss
    simp [SamSeq.Track.track_clock_callback, hmiss]
  · intro dm inv δ hmiss
    simp [DrumMachine.sequencer_clock_callback, storeGetAdd, hmiss]

/-- C4 witness: the amended theorem at the empty track `ssTrack1Ex` and at
the drum machine `dmPlayEx` with its empty store, step 0, delta `1/4`. -/
theorem events_at_empty_step_witness :
    ssTrack1Ex.track_clock_callback 0 (1 / 4) = (ssTrack1Ex, [], (1 / 4, TimeUnit.BEATS)) ∧
    dmPlayEx.sequencer_clock_callback 0 (1 / 4) =
      some ({ dmPlayEx with recorded_notes :=
          dmPlayEx.recorded_notes ++
            [((1 / 4 : ℚ) * ((0 % SEQUENCER_STEPS : Nat) : ℚ), [])] },
        [], (1 / 4, TimeUnit.BEATS)) :=
  ⟨events_at_empty_step.1 ssTrack1Ex 0 (1 / 4) (by with_unfolding_all decide),
   events_at_empty_step.2 dmPlayEx 0 (1 / 4) (by with_unfolding_all decide)⟩

/-- C6 counterexample: in `samplerSeqSkewEx`, track 0 is empty but track 1
holds recorded material, so at least one track has material; yet
`start_playback` schedules nothing and changes nothing at all — in
particular it also raises no `NoRecordedMaterial` error (it is a silent
no-op), and the check consults only track 0. -/
theorem start_playback_skew_ignored :
    (samplerSeqSkewEx.tracks.any (fun t => !t.recorded_notes.isEmpty)) = true ∧
    samplerSeqSkewEx.start_playback = samplerSeqSkewEx ∧
    samplerSeqSkewEx.clock_event_id = none := by
  with_unfolding_all decide

/-- C6 (amended): `start_playback` never fails; the sampler variant schedules
the clock callback if and only if the track list is non-empty and track 0
(only track 0 is consulted) has at least one recorded key, and silently
leaves the state unchanged otherwise; the drum machine variant schedules
unconditionally. -/
theorem start_playback_schedules_iff_track0_nonempty :
    (∀ (sq : Sampler.Sequencer) (t0 : Sampler.Track) (rest : List Sampler.Track),
      sq.tracks = t0 :: rest →
      (0 < t0.recorded_notes.length →
        sq.start_playback.clock_event_id = some sq.clock.next_id ∧
        sq.start_playback.clock.active = sq.clock.active ++ [sq.clock.next_id] ∧
        sq.start_playback.clock.is_running = true) ∧
      (t0.recorded_notes.length = 0 → sq.start_playback = sq)) ∧
    (∀ sq : Sampler.Sequencer, sq.tracks = [] → sq.start_playback = sq) ∧
    (∀ dm : DrumMachine,
      dm.start_playback.clock_event_id = some dm.clock.next_id ∧
      dm.start_playback.clock.active = dm.clock.active ++ [dm.clock.next_id]) := by
  refine ⟨?_, ?_, ?_⟩
  · intro sq t0 rest htracks
    constructor
    · intro hpos
      simp [Sampler.Sequencer.start_playback, htracks, hpos, ClockModel.cue, ClockModel.start]
    · intro hzero
      simp [Sampler.Sequencer.start_playback, htracks, hzero]
  · intro sq htracks
    simp [Sampler.Sequencer.start_playback, htracks]
  · intro dm
    simp [DrumMachine.start_playback, ClockModel.cue]

/-- C6 witness: the amended theorem at the concrete states — `samplerSeqEx`
(track 0 non-empty: callback cued with the fresh handle), `samplerSeqSkewEx`
after emptying (track 0 empty: no-op), and a drum machine. -/
theorem start_playback_schedules_iff_track0_nonempty_witness :
    samplerSeqEx.start_playback.clock_event_id = some samplerSeqEx.clock.next_id ∧
    samplerSeqSkewEx.start_playback = samplerSeqSkewEx ∧
    dmPlayEx.start_playback.clock_event_id = some dmPlayEx.clock.next_id :=
  ⟨((start_playback_schedules_iff_track0_nonempty.1 samplerSeqEx samplerTrackEx [] rfl).1
      (by with_unfolding_all decide)).1,
   (start_playback_schedules_iff_track0_nonempty.1 samplerSeqSkewEx (Sampler.newTrack (1 / 8))
      [samplerTrackEx] rfl).2 (by with_unfolding_all decide),
   (start_playback_schedules_iff_track0_nonempty.2.2 dmPlayEx).1⟩

/-- C8 counterexample: record a note on a track under delta `1/16` (key
`3/16`, aligned), then change the sequencer's quantization delta to `1/4`:
the recorded key of track 0 is no longer a multiple `j * (1/4)` with
`j < 16`, so the alignment invariant does not continue to hold after
`set_quantization_delta`. -/
theorem delta_change_breaks_alignment :
    keysAligned ssTrack0Ex = true ∧
    ((ssSeqEx.set_quantization_delta (1 / 4)).tracks.map (fun p => p.2.map keysAligned)) =
      [[false, true]] := by
  with_unfolding_all decide

/-- C8 (amended): every key of a track's store is an exact multiple
`j * quantization_delta`, `0 ≤ j < sequencer_steps`, of the delta in force
when the key was recorded: recording preserves the alignment invariant
stated against the track's current delta, and `set_quantization_delta`
leaves all recorded stores untouched (it does not re-key), so keys recorded
under an older delta need not be aligned to the new one. -/
theorem step_keys_aligned_to_recording_delta :
    (∀ (tr : SamSeq.Track) (sn : SamplerNote), 0 < tr.sequencer_steps →
      keysAligned tr = true → keysAligned (tr.handle_midi_message sn).1 = true) ∧
    (∀ (sq : SamSeq.Sequencer) (qd : ℚ),
      (sq.set_quantization_delta qd).tracks.map (fun p => p.2.map SamSeq.Track.recorded_notes) =
        sq.tracks.map (fun p => p.2.map SamSeq.Track.recorded_notes)) := by
  constructor
  · intro tr sn hsteps haligned
    by_cases hrec : tr.is_recording = true ∧ sn.message.type = MsgType.note_on
    · simp only [SamSeq.Track.handle_midi_message, if_pos hrec]
      rw [keysAligned, List.all_eq_true] at haligned ⊢
      intro k hk
      rw [storeKeys_storeAppend] at hk
      by_cases hmem :
          ((sn.message.note % tr.sequencer_steps : Nat) : ℚ) * tr.quantization_delta ∈
            storeKeys tr.recorded_notes
      · rw [if_pos hmem] at hk
        exact haligned k hk
      · rw [if_neg hmem] at hk
        rcases List.mem_append.mp hk with h1 | h2
        · exact haligned k h1
        · have hkeq : k =
              ((sn.message.note % tr.sequencer_steps : Nat) : ℚ) * tr.quantization_delta := by
            simpa using h2
          subst hkeq
          refine List.any_eq_true.mpr ⟨sn.message.note % tr.sequencer_steps, ?_, by simp⟩
          exact List.mem_range.mpr (Nat.mod_lt _ hsteps)
    · simp only [SamSeq.Track.handle_midi_message, if_neg hrec]
      exact haligned
  · intro sq qd
    simp [SamSeq.Sequencer.set_quantization_delta]

/-- C8 witness: the amended theorem at the concrete recording track
(fresh empty store, then `ssTrack0Ex` after one record) and at the concrete
sequencer `ssSeqEx` with new delta `1/4`. -/
theorem step_keys_aligned_to_recording_delta_witness :
    keysAligned (ssTrack1Ex.handle_midi_message sampNoteEx).1 = true ∧
    (ssSeqEx.set_quantization_delta (1 / 4)).tracks.map
        (fun p => p.2.map SamSeq.Track.recorded_notes) =
      ssSeqEx.tracks.map (fun p => p.2.map SamSeq.Track.recorded_notes) :=
  ⟨step_keys_aligned_to_recording_delta.1 ssTrack1Ex sampNoteEx (by with_unfolding_all decide)
      (by with_unfolding_all decide),
   step_keys_aligned_to_recording_delta.2 ssSeqEx (1 / 4)⟩

/-- C5 counterexample: from RECORD mode, entering the `Playback` command
switches the mode directly to PLAYBACK.  The ghost trace of mode assignments
made during the command is exactly `[PLAYBACK]` — PERFORM is never passed
through. -/
theorem record_to_playback_is_direct :
    dmRecEx.sequencer_mode = SequencerMode.RECORD ∧
    (dmRecEx.consume_command "Playback").1.sequencer_mode = SequencerMode.PLAYBACK ∧
    (dmRecEx.consume_command "Playback").2.2 = [SequencerMode.PLAYBACK] ∧
    SequencerMode.PERFORM ∉ (dmRecEx.consume_command "Playback").2.2 := by
  with_unfolding_all decide

/-- C5 (amended): the mode is always one of PERFORM, PLAYBACK, RECORD, but the
command loop does allow a direct RECORD → PLAYBACK transition: from RECORD,
the resulting mode is PERFORM on `STOP` or `PERFORM`, PLAYBACK on `PLAYBACK`
(without passing through PERFORM), and RECORD on every other input. -/
theorem mode_transition_table_from_record :
    (∀ (dm : DrumMachine) (input : String),
      (dm.consume_command input).1.sequencer_mode = SequencerMode.PERFORM ∨
      (dm.consume_command input).1.sequencer_mode = SequencerMode.PLAYBACK ∨
      (dm.consume_command input).1.sequencer_mode = SequencerMode.RECORD) ∧
    (∀ (dm : DrumMachine) (input : String), dm.sequencer_mode = SequencerMode.RECORD →
      (dm.consume_command input).1.sequencer_mode =
        (if input.toUpper = "STOP" ∨ input.toUpper = "PERFORM" then SequencerMode.PERFORM
         else if input.toUpper = "PLAYBACK" then SequencerMode.PLAYBACK
         else SequencerMode.RECORD)) := by
  constructor
  · intro dm input
    cases h : (dm.consume_command input).1.sequencer_mode
    · exact Or.inl rfl
    · exact Or.inr (Or.inl rfl)
    · exact Or.inr (Or.inr rfl)
  · intro dm input hmode
    by_cases hstop : input.toUpper = "STOP"
    · simp [DrumMachine.consume_command, hstop, hmode, modeOfCommand,
        DrumMachine.exit_sequencer, DrumMachine.start_playback, DrumMachine.stop_playback]
    · by_cases hperf : input.toUpper = "PERFORM"
      · simp [DrumMachine.consume_command, hstop, hperf, hmode, modeOfCommand,
          DrumMachine.exit_sequencer, DrumMachine.start_playback, DrumMachine.stop_playback]
      · by_cases hplay : input.toUpper = "PLAYBACK"
        · simp [DrumMachine.consume_command, hstop, hperf, hplay, hmode, modeOfCommand,
            DrumMachine.exit_sequencer, DrumMachine.start_playback, DrumMachine.stop_playback]
        · by_cases hrec : input.toUpper = "RECORD"
          · simp [DrumMachine.consume_command, hstop, hperf, hplay, hrec, hmode, modeOfCommand,
              DrumMachine.exit_sequencer, DrumMachine.start_playback, DrumMachine.stop_playback]
          · simp [DrumMachine.consume_command, hstop, hperf, hplay, hrec, hmode, modeOfCommand,
              DrumMachine.exit_sequencer, DrumMachine.start_playback, DrumMachine.stop_playback,
              apply_ite (fun d : DrumMachine => d.sequencer_mode),
              apply_ite (fun p : DrumMachine × Bool × List SequencerMode => p.1.sequencer_mode)]

/-- C5 witness: the amended transition table applied at `dmRecEx` for the
inputs `Playback` (direct switch to PLAYBACK) and `Stop` (back to PERFORM). -/
theorem mode_transition_table_from_record_witness :
    (dmRecEx.consume_command "Playback").1.sequencer_mode = SequencerMode.PLAYBACK ∧
    (dmRecEx.consume_command "Stop").1.sequencer_mode = SequencerMode.PERFORM := by
  constructor
  · rw [mode_transition_table_from_record.2 dmRecEx "Playback" rfl]
    with_unfolding_all decide
  · rw [mode_transition_table_from_record.2 dmRecEx "Stop" rfl]
    with_unfolding_all decide

theorem track_number_at_pos (ts : List SamSeq.Track)
    (hmap : ts.map SamSeq.Track.track_number = List.range ts.length)
    (j : Nat) (h : j < ts.length) :
    (ts.get ⟨j, h⟩).track_number = j := by
  have h1 : (ts.map SamSeq.Track.track_number).get? j = (List.range ts.length).get? j := by
    rw [hmap]
  rw [List.get?_map, List.get?_eq_get h, List.get?_range h] at h1
  exact Option.some.inj h1

theorem renumberAux_map_track_number (k : Nat) (ts : List SamSeq.Track) :
    ∀ (i : Nat),
      (∀ j (h : j < ts.length), i + j < k → (ts.get ⟨j, h⟩).track_number = i + j) →
      (SamSeq.renumberAux k i ts).map SamSeq.Track.track_number = List.range' i ts.length := by
  induction ts with
  | nil => intro i _; rfl
  | cons t ts ih =>
      intro i hpre
      rw [SamSeq.renumberAux]
      simp only [List.map_cons, List.length_cons]
      rw [List.range'_succ]
      congr 1
      · by_cases hk : k ≤ i
        · simp [hk]
        · have ht : t.track_number = i := by
            have := hpre 0 (by simp) (by omega)
            simpa using this
          simp [hk, ht]
      · refine ih (i + 1) ?_
        intro j h hlt
        have heq : i + (j + 1) = i + 1 + j := by omega
        have := hpre (j + 1) (by simpa using Nat.succ_lt_succ h) (by omega)
        simp only [List.get_cons_succ] at this
        rw [heq] at this
        exact this

theorem deleteTrackFromList_renumbers (ts : List SamSeq.Track) (tn : Nat)
    (htn : tn < ts.length)
    (hmap : ts.map SamSeq.Track.track_number = List.range ts.length) :
    (SamSeq.deleteTrackFromList ts tn).map SamSeq.Track.track_number =
      List.range (ts.length - 1) := by
  have hget : ts.get? tn = some (ts.get ⟨tn, htn⟩) := List.get?_eq_get htn
  have htnum := track_number_at_pos ts hmap tn htn
  simp only [SamSeq.deleteTrackFromList, hget, htnum]
  rw [SamSeq.renumberFrom]
  have hlen : (ts.eraseIdx tn).length = ts.length - 1 := by
    rw [List.length_eraseIdx]
    simp [htn]
  have hmain := renumberAux_map_track_number tn (ts.eraseIdx tn) 0 ?_
  · rw [hmain, hlen, List.range_eq_range']
  · intro j h hjk
    have hjtn : j < tn := by omega
    have hjlen : j < ts.length := by omega
    have hgetj : (ts.eraseIdx tn).get ⟨j, h⟩ = ts.get ⟨j, hjlen⟩ := by
      simp only [List.get_eq_getElem]
      rw [List.getElem_eraseIdx]
      simp [hjtn]
    rw [hgetj]
    have := track_number_at_pos ts hmap j hjlen
    omega

/-- C7 counterexample: in `ssSeqEx` the selected track is track 0 of the
instrument `"sampler"`; after `delete_track "sampler" 0` the selection is
unchanged (it still carries identity tag 0), while the surviving track list
contains only the track with tag 1 — the selected track is no longer an
element of the current track collection. -/
theorem delete_selected_track_leaves_dangling_selection :
    ssSeqEx.selected_track ∈ (SamSeq.dictTracks ssSeqEx.tracks "sampler").getD [] ∧
    (ssSeqEx.delete_track "sampler" 0).selected_track ∉
      (SamSeq.dictTracks (ssSeqEx.delete_track "sampler" 0).tracks "sampler").getD [] ∧
    ((SamSeq.dictTracks (ssSeqEx.delete_track "sampler" 0).tracks "sampler").getD []).map
      SamSeq.Track.tid = [1] := by
  with_unfolding_all decide

/-- C7 (amended): the two delete implementations each provide one half of the
claim.  The sampler variant, on an in-range delete, always leaves a non-empty
track list (auto-creating a fresh track when none remain) with the selection
reassigned to a member of it, but does no renumbering, and an out-of-range
index raises `IndexError` leaving the state untouched; the sampler_sequencer
variant renumbers the surviving tracks of the instrument back to their
positions `0..n-1` (given the track numbers were consecutive before), but
never reassigns the selection, so deleting the selected track leaves the
selection dangling. -/
theorem delete_track_selection_and_renumbering :
    (∀ (sq : Sampler.Sequencer) (tn : Nat), tn < sq.tracks.length →
      (sq.delete_track tn).elim False
        (fun sq2 => sq2.tracks ≠ [] ∧ sq2.selected_track ∈ sq2.tracks)) ∧
    (∀ (sq : Sampler.Sequencer) (tn : Nat), ¬(tn < sq.tracks.length) →
      sq.delete_track tn = none) ∧
    (∀ (ts : List SamSeq.Track) (tn : Nat), tn < ts.length →
      ts.map SamSeq.Track.track_number = List.range ts.length →
      (SamSeq.deleteTrackFromList ts tn).map SamSeq.Track.track_number =
        List.range (ts.length - 1)) ∧
    (∀ (sq : SamSeq.Sequencer) (instrument_name : String) (tn : Nat),
      (sq.delete_track instrument_name tn).selected_track = sq.selected_track) := by
  refine ⟨?_, ?_, deleteTrackFromList_renumbers, ?_⟩
  · intro sq tn hin
    unfold Sampler.Sequencer.delete_track
    rw [if_pos hin]
    cases herase : sq.tracks.eraseIdx tn with
    | nil =>
        simp [herase, Sampler.Sequencer.add_track]
    | cons t rest =>
        have hne : t :: rest ≠ [] := List.cons_ne_nil t rest
        simp [herase, List.getLast?_eq_getLast _ hne, List.getLast_mem hne]
  · intro sq tn hout
    unfold Sampler.Sequencer.delete_track
    rw [if_neg hout]
  · intro sq instrument_name tn
    rfl

/-- C7 witness: applying the amended theorem at the concrete states — the
sampler sequencer `samplerSeqEx` after deleting track 0, the two-track list of
`ssSeqEx` deleting index 0, and `ssSeqEx` itself. -/
theorem delete_track_selection_and_renumbering_witness :
    (samplerSeqEx.delete_track 0).elim False
      (fun sq2 => sq2.tracks ≠ [] ∧ sq2.selected_track ∈ sq2.tracks) ∧
    samplerSeqEx.delete_track 1 = none ∧
    (SamSeq.deleteTrackFromList [ssTrack0Ex, ssTrack1Ex] 0).map SamSeq.Track.track_number =
      List.range 1 ∧
    (ssSeqEx.delete_track "sampler" 0).selected_track = ssSeqEx.selected_track :=
  ⟨delete_track_selection_and_renumbering.1 samplerSeqEx 0 (by with_unfolding_all decide),
   delete_track_selection_and_renumbering.2.1 samplerSeqEx 1 (by with_unfolding_all decide),
   delete_track_selection_and_renumbering.2.2.1 [ssTrack0Ex, ssTrack1Ex] 0
     (by with_unfolding_all decide) (by with_unfolding_all decide),
   delete_track_selection_and_renumbering.2.2.2 ssSeqEx "sampler" 0⟩

theorem digit_ne_of_not_digit {c d : Char} (h : c.isDigit = true) (hd : d.isDigit = false) :
    ¬(c = d) := by
  intro he
  subst he
  rw [h] at hd
  cases hd

theorem all_digits_ne_T {l : List Char} (h : l.all Char.isDigit = true) :
    ∀ a ∈ l, a ≠ 'T' := by
  intro a ha
  exact digit_ne_of_not_digit (List.all_eq_true.mp h a ha) (by decide)

theorem splitAtSlash_digits_append (ds1 ds2 : List Char) (h : ds1.all Char.isDigit = true) :
    splitAtSlash (ds1 ++ '/' :: ds2) = (ds1, some ds2) := by
  induction ds1 with
  | nil => simp [splitAtSlash]
  | cons c cs ih =>
      have hc : c.isDigit = true := (List.all_eq_true.mp h c (by simp))
      have hcs : cs.all Char.isDigit = true := by
        rw [List.all_eq_true] at h ⊢
        intro a ha
        exact h a (by simp [ha])
      have hslash : ¬(c = '/') := digit_ne_of_not_digit hc (by decide)
      simp [splitAtSlash, hslash, ih hcs]

theorem parseDigits_of_digits (ds : List Char) (hne : ds ≠ []) (h : ds.all Char.isDigit = true) :
    parseDigits ds = some (digitsToNat ds) := by
  cases ds with
  | nil => exact absurd rfl hne
  | cons c cs => simp [parseDigits, h]

theorem pyFraction_digit_token (ds1 ds2 : List Char) (h1ne : ds1 ≠ [])
    (h1 : ds1.all Char.isDigit = true) (h2ne : ds2 ≠ [])
    (h2 : ds2.all Char.isDigit = true) :
    pyFraction (ds1 ++ '/' :: ds2) =
      if digitsToNat ds2 = 0 then none
      else some ((digitsToNat ds1 : ℚ) / (digitsToNat ds2 : ℚ)) := by
  cases ds1 with
  | nil => exact absurd rfl h1ne
  | cons c cs =>
      have hc : c.isDigit = true := (List.all_eq_true.mp h1 c (by simp))
      have hminus : ¬(c = '-') := digit_ne_of_not_digit hc (by decide)
      have hplus : ¬(c = '+') := digit_ne_of_not_digit hc (by decide)
      rw [pyFraction]
      simp only [parseSign, List.cons_append, if_neg hminus, if_neg hplus]
      rw [← List.cons_append, splitAtSlash_digits_append (c :: cs) ds2 h1]
      simp [parseDigits_of_digits (c :: cs) (List.cons_ne_nil c cs) h1,
        parseDigits_of_digits ds2 h2ne h2]

theorem filter_T_digit_token (ds1 ds2 : List Char) (h1 : ds1.all Char.isDigit = true)
    (h2 : ds2.all Char.isDigit = true) :
    ((ds1 ++ '/' :: ds2).filter (fun c => c ≠ 'T')) = ds1 ++ '/' :: ds2 := by
  rw [List.filter_eq_self]
  intro a ha
  rcases List.mem_append.mp ha with h | h
  · simpa using all_digits_ne_T h1 a h
  · rcases List.mem_cons.mp h with h | h
    · subst h; decide
    · simpa using all_digits_ne_T h2 a h

/-- C2 counterexample: `"1T/2"` and `"4"` do not match the specification's
token grammar (`"n/d"` or `"n/dT"`), yet `_quantization_to_beats` accepts
both instead of failing: every `'T'` is stripped wherever it occurs (and
still triggers the triplet factor), and a plain integer token is accepted
by `fractions.Fraction`. -/
theorem malformed_quantization_tokens_accepted :
    wellFormedQuantToken "1T/2" = false ∧
    wellFormedQuantToken "4" = false ∧
    quantization_to_beats "1T/2" = some (1 / 3) ∧
    quantization_to_beats "4" = some 4 := by
  with_unfolding_all decide

/-- C2 (amended): on well-formed tokens the converter is exact — `"n/d"`
yields `n/d` and `"n/dT"` yields `(n/d) * (2/3)` — and a zero denominator
always fails; but not every malformed token fails: `'T'` characters are
stripped wherever they occur (any `'T'` anywhere triggers the triplet
factor), and integer tokens without `'/'` are accepted, so acceptance is
strictly broader than the grammar. -/
theorem quantization_converter_on_tokens :
    ∀ (ds1 ds2 : List Char), ds1 ≠ [] → ds1.all Char.isDigit = true →
      ds2 ≠ [] → ds2.all Char.isDigit = true →
      (digitsToNat ds2 ≠ 0 →
        quantization_to_beats (String.mk (ds1 ++ '/' :: ds2)) =
          some ((digitsToNat ds1 : ℚ) / (digitsToNat ds2 : ℚ)) ∧
        quantization_to_beats (String.mk (ds1 ++ '/' :: (ds2 ++ ['T']))) =
          some (((digitsToNat ds1 : ℚ) / (digitsToNat ds2 : ℚ)) * (2 / 3))) ∧
      (digitsToNat ds2 = 0 →
        quantization_to_beats (String.mk (ds1 ++ '/' :: ds2)) = none ∧
        quantization_to_beats (String.mk (ds1 ++ '/' :: (ds2 ++ ['T']))) = none) := by
  intro ds1 ds2 h1ne h1 h2ne h2
  have htoList : (String.mk (ds1 ++ '/' :: ds2)).toList = ds1 ++ '/' :: ds2 := rfl
  have htoListT :
      (String.mk (ds1 ++ '/' :: (ds2 ++ ['T']))).toList = ds1 ++ '/' :: (ds2 ++ ['T']) := rfl
  have hfilter := filter_T_digit_token ds1 ds2 h1 h2
  have hfilterT : ((ds1 ++ '/' :: (ds2 ++ ['T'])).filter (fun c => c ≠ 'T')) =
      ds1 ++ '/' :: ds2 := by
    have e1 : (ds1 ++ '/' :: (ds2 ++ ['T'])) = (ds1 ++ '/' :: ds2) ++ ['T'] := by simp
    rw [e1, List.filter_append, hfilter]
    simp
  have hcontains : ((ds1 ++ '/' :: ds2).contains 'T') = false := by
    have hmem : 'T' ∉ ds1 ++ '/' :: ds2 := by
      intro hm
      rcases List.mem_append.mp hm with h | h
      · exact all_digits_ne_T h1 'T' h rfl
      · rcases List.mem_cons.mp h with h | h
        · cases h
        · exact all_digits_ne_T h2 'T' h rfl
    simpa [List.contains, List.elem_iff] using hmem
  have hcontainsT : ((ds1 ++ '/' :: (ds2 ++ ['T'])).contains 'T') = true := by
    simp [List.contains, List.elem_iff]
  have hfrac := pyFraction_digit_token ds1 ds2 h1ne h1 h2ne h2
  constructor
  · intro hd
    constructor
    · rw [quantization_to_beats]
      rw [htoList, hfilter, hfrac, if_neg hd, hcontains]
      simp
    · rw [quantization_to_beats]
      rw [htoListT, hfilterT, hfrac, if_neg hd, hcontainsT]
      simp
  · intro hd
    constructor
    · rw [quantization_to_beats]
      rw [htoList, hfilter, hfrac, if_pos hd]
    · rw [quantization_to_beats]
      rw [htoListT, hfilterT, hfrac, if_pos hd]

/-- C2 witness: the amended theorem at the concrete tokens `"1/16"` (value
`1/16`), `"1/8T"` (value `(1/8)*(2/3) = 1/12`) and `"1/0"` (failure). -/
theorem quantization_converter_on_tokens_witness :
    quantization_to_beats "1/16" = some (1 / 16) ∧
    quantization_to_beats "1/8T" = some (1 / 12) ∧
    quantization_to_beats "1/0" = none := by
  refine ⟨?_, ?_, ?_⟩
  · have h := (quantization_converter_on_tokens ['1'] ['1', '6'] (by decide) (by decide)
      (by decide) (by decide)).1 (by with_unfolding_all decide)
    rw [show ("1/16" : String) = String.mk (['1'] ++ '/' :: ['1', '6']) by rfl, h.1]
    with_unfolding_all decide
  · have h := (quantization_converter_on_tokens ['1'] ['8'] (by decide) (by decide)
      (by decide) (by decide)).1 (by with_unfolding_all decide)
    rw [show ("1/8T" : String) = String.mk (['1'] ++ '/' :: (['8'] ++ ['T'])) by rfl, h.2]
    with_unfolding_all decide
  · have h := (quantization_converter_on_tokens ['1'] ['0'] (by decide) (by decide)
      (by decide) (by decide)).2 (by with_unfolding_all decide)
    rw [show ("1/0" : String) = String.mk (['1'] ++ '/' :: ['0']) by rfl]
    exact h.1

theorem pySplitSlash_digits_append (ds1 ds2 : List Char) (h : ds1.all Char.isDigit = true) :
    pySplitSlash (ds1 ++ '/' :: ds2) = ds1 :: pySplitSlash ds2 := by
  induction ds1 with
  | nil => simp [pySplitSlash]
  | cons c cs ih =>
      have hc : c.isDigit = true := (List.all_eq_true.mp h c (by simp))
      have hcs : cs.all Char.isDigit = true := by
        rw [List.all_eq_true] at h ⊢
        intro a ha
        exact h a (by simp [ha])
      have hslash : ¬(c = '/') := digit_ne_of_not_digit hc (by decide)
      rw [List.cons_append, pySplitSlash]
      rw [if_neg hslash, ih hcs]

theorem pySplitSlash_no_slash (ds : List Char) (h : ds.all Char.isDigit = true) :
    pySplitSlash ds = [ds] := by
  induction ds with
  | nil => rfl
  | cons c cs ih =>
      have hc : c.isDigit = true := (List.all_eq_true.mp h c (by simp))
      have hcs : cs.all Char.isDigit = true := by
        rw [List.all_eq_true] at h ⊢
        intro a ha
        exact h a (by simp [ha])
      have hslash : ¬(c = '/') := digit_ne_of_not_digit hc (by decide)
      rw [pySplitSlash, if_neg hslash, ih hcs]

/-- C10: `track_length_in_measures` is `16 // d` for a token `"n/d"`; every
denominator `d ≥ 17` makes it `0`, and the multi-track clock callback's
`invocations % track_length_in_measures` then divides by zero (the callback
raises for every invocation); conversely, for `1 ≤ d ≤ 16` the value is at
least `1` and the callback always returns a result.  The callback is thus
total exactly under the precondition `d ≤ 16` (with `d ≥ 1`). -/
theorem track_length_zero_divides_by_zero :
    (∀ (ds1 ds2 : List Char), ds1.all Char.isDigit = true →
      ds2 ≠ [] → ds2.all Char.isDigit = true →
      (compute_track_length_in_measures (String.mk (ds1 ++ '/' :: ds2)) =
        if digitsToNat ds2 = 0 then none else some (16 / digitsToNat ds2)) ∧
      (17 ≤ digitsToNat ds2 →
        compute_track_length_in_measures (String.mk (ds1 ++ '/' :: ds2)) = some 0) ∧
      (1 ≤ digitsToNat ds2 → digitsToNat ds2 ≤ 16 →
        ∃ m, compute_track_length_in_measures (String.mk (ds1 ++ '/' :: ds2)) = some m ∧
          1 ≤ m)) ∧
    (∀ (sq : SamSeq.Sequencer) (invocations : Nat) (delta : ℚ),
      sq.track_length_in_measures = 0 →
      sq.sequencer_clock_callback invocations delta = none) ∧
    (∀ (sq : SamSeq.Sequencer) (invocations : Nat) (delta : ℚ),
      sq.track_length_in_measures ≠ 0 →
      ∃ r, sq.sequencer_clock_callback invocations delta = some r) := by
  refine ⟨?_, ?_, ?_⟩
  · intro ds1 ds2 h1 h2ne h2
    have hsplit : pySplitSlash (ds1 ++ '/' :: ds2) = ds1 :: pySplitSlash ds2 :=
      pySplitSlash_digits_append ds1 ds2 h1
    have hsplit2 : pySplitSlash ds2 = [ds2] := pySplitSlash_no_slash ds2 h2
    have hbase :
        compute_track_length_in_measures (String.mk (ds1 ++ '/' :: ds2)) =
          if digitsToNat ds2 = 0 then none else some (16 / digitsToNat ds2) := by
      rw [compute_track_length_in_measures]
      have htl : (String.mk (ds1 ++ '/' :: ds2)).toList = ds1 ++ '/' :: ds2 := rfl
      rw [htl, hsplit, hsplit2]
      simp [parseDigits_of_digits ds2 h2ne h2, SEQUENCER_STEPS]
    refine ⟨hbase, ?_, ?_⟩
    · intro h17
      rw [hbase, if_neg (by omega)]
      have : 16 / digitsToNat ds2 = 0 := Nat.div_eq_of_lt (by omega)
      rw [this]
    · intro h1le h16
      refine ⟨16 / digitsToNat ds2, ?_, ?_⟩
      · rw [hbase, if_neg (by omega)]
      · exact (Nat.one_le_div_iff (by omega)).mpr h16
  · intro sq invocations delta hzero
    simp [SamSeq.Sequencer.sequencer_clock_callback, pymod, hzero]
  · intro sq invocations delta hnz
    simp only [SamSeq.Sequencer.sequencer_clock_callback, pymod, if_neg hnz]
    exact ⟨_, rfl⟩

/-- C10 witness: `"1/32"` yields track length `16 // 32 = 0` and the callback
then fails at every invocation (here invocation 0 of `ssSeqZeroEx`); `"1/8"`
yields `2 ≥ 1` and the callback of `ssSeqEx` (track length 1) returns a
result. -/
theorem track_length_zero_divides_by_zero_witness :
    compute_track_length_in_measures "1/32" = some 0 ∧
    ssSeqZeroEx.sequencer_clock_callback 0 (1 / 16) = none ∧
    compute_track_length_in_measures "1/8" = some 2 ∧
    (∃ r, ssSeqEx.sequencer_clock_callback 0 (1 / 16) = some r) := by
  refine ⟨?_, ?_, ?_, ?_⟩
  · rw [show ("1/32" : String) = String.mk (['1'] ++ '/' :: ['3', '2']) by rfl]
    exact (track_length_zero_divides_by_zero.1 ['1'] ['3', '2'] (by decide) (by decide)
      (by decide)).2.1 (by with_unfolding_all decide)
  · exact track_length_zero_divides_by_zero.2.1 ssSeqZeroEx 0 (1 / 16) rfl
  · rw [show ("1/8" : String) = String.mk (['1'] ++ '/' :: ['8']) by rfl]
    have h := ((track_length_zero_divides_by_zero.1 ['1'] ['8'] (by decide) (by decide)
      (by decide)).1)
    rw [h]
    with_unfolding_all decide
  · exact track_length_zero_divides_by_zero.2.2 ssSeqEx 0 (1 / 16) (by with_unfolding_all decide)


theorem clock_run_zero (delta : ℚ) (inv : Nat) (sq : Sampler.Sequencer) :
    Sampler.clock_run delta 0 inv sq = (sq, true) := rfl

theorem clock_run_succ (delta : ℚ) (fuel inv : Nat) (sq : Sampler.Sequencer) :
    Sampler.clock_run delta (fuel + 1) inv sq =
      (match sq.sequencer_clock_callback inv delta with
       | (sq2, none) => (sq2, false)
       | (sq2, some _) => Sampler.clock_run delta fuel (inv + 1) sq2) := rfl

theorem dispatch_step_eq (sq : Sampler.Sequencer) (inv : Nat) (delta : ℚ) :
    sq.dispatch_step inv delta =
      ((sq.dispatch_step inv delta).1, some (delta, TimeUnit.BEATS)) := by
  simp [Sampler.Sequencer.dispatch_step]

theorem dispatch_step_fields (sq : Sampler.Sequencer) (inv : Nat) (delta : ℚ) :
    (sq.dispatch_step inv delta).1.playback_track_index = sq.playback_track_index ∧
    (sq.dispatch_step inv delta).1.tracks = sq.tracks ∧
    (sq.dispatch_step inv delta).1.playing_track = sq.playing_track := by
  simp [Sampler.Sequencer.dispatch_step]

theorem tick_nonboundary (sq : Sampler.Sequencer) (inv : Nat) (delta : ℚ)
    (h : ¬(inv % SEQUENCER_STEPS = 0)) :
    sq.sequencer_clock_callback inv delta = sq.dispatch_step inv delta := by
  rw [Sampler.Sequencer.sequencer_clock_callback, if_neg h]

/-- The advancing measure boundary: the callback result is the dispatch of the
state whose `playing_track` is the track at the old index and whose index has
advanced. -/
theorem tick_boundary_advance (sq : Sampler.Sequencer) (inv : Nat) (delta : ℚ)
    (h0 : inv % SEQUENCER_STEPS = 0) (hlt : ¬(sq.playback_track_index = sq.tracks.length)) :
    sq.sequencer_clock_callback inv delta =
      ({ sq with playing_track := sq.tracks.get? sq.playback_track_index,
                 playback_track_index := sq.playback_track_index + 1 }).dispatch_step inv delta := by
  rw [Sampler.Sequencer.sequencer_clock_callback, if_pos h0, if_neg hlt]

theorem tick_boundary_stop (sq : Sampler.Sequencer) (inv : Nat) (delta : ℚ)
    (h0 : inv % SEQUENCER_STEPS = 0) (heq : sq.playback_track_index = sq.tracks.length) :
    sq.sequencer_clock_callback inv delta = ({ sq with monitor_event := true }, none) := by
  rw [Sampler.Sequencer.sequencer_clock_callback, if_pos h0, if_pos heq]

theorem clock_run_append (delta : ℚ) (a : Nat) :
    ∀ (b inv : Nat) (sq : Sampler.Sequencer),
      Sampler.clock_run delta (a + b) inv sq =
        (match Sampler.clock_run delta a inv sq with
         | (sq2, true) => Sampler.clock_run delta b (inv + a) sq2
         | (sq2, false) => (sq2, false)) := by
  induction a with
  | zero =>
      intro b inv sq
      rw [Nat.zero_add, clock_run_zero, Nat.add_zero]
  | succ a ih =>
      intro b inv sq
      have hstep : a + 1 + b = (a + b) + 1 := by omega
      rw [hstep, clock_run_succ, clock_run_succ]
      rcases hc : sq.sequencer_clock_callback inv delta with ⟨sq2, o⟩
      cases o with
      | none => rfl
      | some r =>
          dsimp only
          rw [ih b (inv + 1) sq2]
          have harith : inv + 1 + a = inv + (a + 1) := by omega
          rw [harith]

theorem clock_run_nonboundary (delta : ℚ) (k : Nat) :
    ∀ (inv : Nat) (sq : Sampler.Sequencer),
      (∀ j, j < k → ¬((inv + j) % SEQUENCER_STEPS = 0)) →
      ∃ sq2, Sampler.clock_run delta k inv sq = (sq2, true) ∧
        sq2.playback_track_index = sq.playback_track_index ∧ sq2.tracks = sq.tracks := by
  induction k with
  | zero =>
      intro inv sq _
      exact ⟨sq, rfl, rfl, rfl⟩
  | succ k ih =>
      intro inv sq hnb
      have h0 : ¬(inv % SEQUENCER_STEPS = 0) := by
        have := hnb 0 (by omega)
        simpa using this
      rw [clock_run_succ, tick_nonboundary sq inv delta h0, dispatch_step_eq]
      dsimp only
      obtain ⟨hidx, htr, _⟩ := dispatch_step_fields sq inv delta
      obtain ⟨sq2, hrun, hidx2, htr2⟩ := ih (inv + 1) ((sq.dispatch_step inv delta).1) (by
        intro j hj
        have := hnb (j + 1) (by omega)
        have heq : inv + (j + 1) = inv + 1 + j := by omega
        rwa [heq] at this)
      exact ⟨sq2, hrun, by rw [hidx2, hidx], by rw [htr2, htr]⟩

theorem clock_run_measure (delta : ℚ) (inv : Nat) (sq : Sampler.Sequencer)
    (h0 : inv % SEQUENCER_STEPS = 0)
    (hlt : ¬(sq.playback_track_index = sq.tracks.length)) :
    ∃ sq2, Sampler.clock_run delta 16 inv sq = (sq2, true) ∧
      sq2.playback_track_index = sq.playback_track_index + 1 ∧ sq2.tracks = sq.tracks := by
  have h0' : inv % 16 = 0 := h0
  obtain ⟨q, hq⟩ : ∃ q, inv = 16 * q := ⟨inv / 16, by omega⟩
  rw [show (16 : Nat) = 15 + 1 from rfl, clock_run_succ,
    tick_boundary_advance sq inv delta h0 hlt, dispatch_step_eq]
  dsimp only
  set sqadv : Sampler.Sequencer :=
    { sq with playing_track := sq.tracks.get? sq.playback_track_index,
              playback_track_index := sq.playback_track_index + 1 } with hsqadv
  obtain ⟨hidx, htr, _⟩ := dispatch_step_fields sqadv inv delta
  obtain ⟨sq2, hrun, hidx2, htr2⟩ :=
    clock_run_nonboundary delta 15 (inv + 1) ((sqadv.dispatch_step inv delta).1) (by
      intro j hj
      have heq : inv + 1 + j = 16 * q + (1 + j) := by omega
      rw [heq]
      show ¬((16 * q + (1 + j)) % 16 = 0)
      rw [Nat.mul_add_mod]
      rw [Nat.mod_eq_of_lt (show 1 + j < 16 by omega)]
      omega)
  refine ⟨sq2, hrun, ?_, by rw [htr2, htr]⟩
  rw [hidx2, hidx]

theorem clock_run_measures (delta : ℚ) (ts : List Sampler.Track) (sel : Sampler.Track) :
    ∀ m, m ≤ ts.length →
      ∃ sq2, Sampler.clock_run delta (16 * m) 0 (Sampler.initial_playback ts sel) =
          (sq2, true) ∧
        sq2.playback_track_index = m ∧ sq2.tracks = ts := by
  intro m
  induction m with
  | zero =>
      intro _
      exact ⟨Sampler.initial_playback ts sel, rfl, rfl, rfl⟩
  | succ m ih =>
      intro hle
      obtain ⟨sq2, hrun, hidx, htr⟩ := ih (by omega)
      have hsplit : 16 * (m + 1) = 16 * m + 16 := by omega
      rw [hsplit, clock_run_append delta (16 * m) 16 0 (Sampler.initial_playback ts sel), hrun]
      have hlt : ¬(sq2.playback_track_index = sq2.tracks.length) := by
        rw [hidx, htr]
        omega
      obtain ⟨sq3, hrun3, hidx3, htr3⟩ := clock_run_measure delta (0 + 16 * m) sq2
        (by show (0 + 16 * m) % 16 = 0; omega) hlt
      refine ⟨sq3, ?_, by rw [hidx3, hidx], by rw [htr3, htr]⟩
      dsimp only
      exact hrun3

/-- C3 counterexample: the drum callback does not always return
`(delta, BEATS)`.  In `dmDivEx` — RECORD mode, with the Note On of pitch 3
recorded at slot `3/16` — the tick at invocation 3 iterates the live list at
its own key while re-recording each dispatched note into that same list, so
the dispatch loop never terminates and the callback never returns
(modelled as `none`). -/
theorem record_mode_playback_tick_diverges :
    dmDivEx.sequencer_mode = SequencerMode.RECORD ∧
    storeLookup dmDivEx.recorded_notes ((1 / 16 : ℚ) * ((3 % SEQUENCER_STEPS : Nat) : ℚ)) =
      some [{ msgEx with time := 3 * (1 / 16) }] ∧
    dmDivEx.sequencer_clock_callback 3 (1 / 16) = none := by
  with_unfolding_all decide

/-- C3 (amended): whenever the drum machine's single-track clock callback
returns, it returns `(delta, BEATS)` — playback never stops on its own — but
the callback fails to return at all exactly when the machine is in RECORD
mode and the slot under playback holds a Note On whose pitch-derived key is
that slot's own index (the live dispatch list then grows under iteration
forever); the sampler's multi-track arrangement callback returns `none`
(deregistering itself) as soon as a measure boundary finds the measure index
equal to the track-list length, dispatching nothing on that tick; and a full
arrangement run from the initial playback state stays registered for exactly
`16 * number_of_tracks` invocations, after which every longer run is
deregistered and dispatches no further events. -/
theorem single_track_loops_arrangement_terminates :
    (∀ (dm : DrumMachine) (invocations : Nat) (delta : ℚ)
        (r : DrumMachine × List Msg × (ℚ × TimeUnit)),
      dm.sequencer_clock_callback invocations delta = some r →
      r.2.2 = (delta, TimeUnit.BEATS)) ∧
    (∀ (dm : DrumMachine) (invocations : Nat) (delta : ℚ),
      dm.sequencer_clock_callback invocations delta = none ↔
        dm.sequencer_mode = SequencerMode.RECORD ∧
        (storeGetAdd dm.recorded_notes
            (delta * ((invocations % SEQUENCER_STEPS : Nat) : ℚ))).1.any
          (fun m => m.type = MsgType.note_on ∧
            ((m.note % SEQUENCER_STEPS : Nat) : ℚ) * dm.quantization_delta =
              delta * ((invocations % SEQUENCER_STEPS : Nat) : ℚ)) = true) ∧
    (∀ (sq : Sampler.Sequencer) (invocations : Nat) (delta : ℚ),
      invocations % SEQUENCER_STEPS = 0 →
      sq.playback_track_index = sq.tracks.length →
      (sq.sequencer_clock_callback invocations delta).2 = none ∧
      (sq.sequencer_clock_callback invocations delta).1.dispatched = sq.dispatched) ∧
    (∀ (ts : List Sampler.Track) (sel : Sampler.Track) (delta : ℚ),
      (Sampler.clock_run delta (16 * ts.length) 0 (Sampler.initial_playback ts sel)).2 =
        true ∧
      ∀ k,
        (Sampler.clock_run delta (16 * ts.length + 1 + k) 0
          (Sampler.initial_playback ts sel)).2 = false ∧
        (Sampler.clock_run delta (16 * ts.length + 1 + k) 0
          (Sampler.initial_playback ts sel)).1.dispatched =
        (Sampler.clock_run delta (16 * ts.length) 0
          (Sampler.initial_playback ts sel)).1.dispatched) := by
  refine ⟨?_, ?_, ?_, ?_⟩
  · intro dm invocations delta r h
    simp only [DrumMachine.sequencer_clock_callback] at h
    split at h
    · cases h
    · rw [← Option.some.inj h]
  · intro dm invocations delta
    by_cases hcond : dm.sequencer_mode = SequencerMode.RECORD ∧
        (storeGetAdd dm.recorded_notes
            (delta * ((invocations % SEQUENCER_STEPS : Nat) : ℚ))).1.any
          (fun m => m.type = MsgType.note_on ∧
            ((m.note % SEQUENCER_STEPS : Nat) : ℚ) * dm.quantization_delta =
              delta * ((invocations % SEQUENCER_STEPS : Nat) : ℚ)) = true
    · simp [DrumMachine.sequencer_clock_callback, hcond]
    · simp [DrumMachine.sequencer_clock_callback, hcond]
  · intro sq invocations delta h0 heq
    rw [tick_boundary_stop sq invocations delta h0 heq]
    exact ⟨rfl, rfl⟩
  · intro ts sel delta
    obtain ⟨sq2, hrun, hidx, htr⟩ :=
      clock_run_measures delta ts sel ts.length (Nat.le_refl _)
    refine ⟨by rw [hrun], ?_⟩
    intro k
    have hsplit : 16 * ts.length + 1 + k = 16 * ts.length + (k + 1) := by omega
    rw [hsplit,
      clock_run_append delta (16 * ts.length) (k + 1) 0 (Sampler.initial_playback ts sel),
      hrun]
    dsimp only
    rw [clock_run_succ,
      tick_boundary_stop sq2 (0 + 16 * ts.length) delta
        (by show (0 + 16 * ts.length) % 16 = 0; omega) (by rw [hidx, htr])]
    dsimp only
    exact ⟨rfl, rfl⟩

/-- C3 witness: the theorem at the concrete states — a drum machine tick keeps
returning `(1/4, BEATS)`; the finished one-track sampler `samplerSeqDoneEx`
(measure index 1 = number of tracks) deregisters at invocation 16; and the
one-track arrangement `[samplerTrackEx]` is alive for 16 invocations and dead
with unchanged dispatch log at invocation 17. -/
theorem single_track_loops_arrangement_terminates_witness :
    (dmPlayEx.sequencer_clock_callback 0 (1 / 4)).map (fun r => r.2.2) =
      some (1 / 4, TimeUnit.BEATS) ∧
    dmDivEx.sequencer_clock_callback 3 (1 / 16) = none ∧
    (samplerSeqDoneEx.sequencer_clock_callback 16 (1 / 8)).2 = none ∧
    (Sampler.clock_run (1 / 8) 16 0
      (Sampler.initial_playback [samplerTrackEx] samplerTrackEx)).2 = true ∧
    (Sampler.clock_run (1 / 8) 17 0
      (Sampler.initial_playback [samplerTrackEx] samplerTrackEx)).2 = false := by
  refine ⟨?_, ?_, ?_, ?_, ?_⟩
  · cases hc : dmPlayEx.sequencer_clock_callback 0 (1 / 4) with
    | none => exact absurd hc (by with_unfolding_all decide)
    | some r =>
        simp [single_track_loops_arrangement_terminates.1 dmPlayEx 0 (1 / 4) r hc]
  · exact (single_track_loops_arrangement_terminates.2.1 dmDivEx 3 (1 / 16)).mpr
      (by with_unfolding_all decide)
  · exact (single_track_loops_arrangement_terminates.2.2.1 samplerSeqDoneEx 16 (1 / 8)
      (by decide) (by with_unfolding_all decide)).1
  · exact (single_track_loops_arrangement_terminates.2.2.2 [samplerTrackEx] samplerTrackEx
      (1 / 8)).1
  · exact ((single_track_loops_arrangement_terminates.2.2.2 [samplerTrackEx] samplerTrackEx
      (1 / 8)).2 0).1
